import Mathlib

/-!
Verification of the obj2kmz-converter repository against its design
specification.  The Python sources are shallowly embedded: pure functions
become Lean functions over `ℚ` (Python floats are modelled as exact
rationals; float `repr` round-trips values exactly, which the rational
model preserves), strings become Lean `String`/`List Char` with faithful
models of the `str.strip`/`str.split`/`str.startswith` operations used by
the code, fallible code returns `Except`/`Option`, and the filesystem
effects of the pipeline are modelled by explicit state passing over a
finite map from paths to line lists.  External collaborators (the
pyransac3d plane fit, pyproj transformer, assimp converter) are
parameters of the embedding, constrained only by their documented
contracts.
-/

/- The rational arithmetic operations are marked irreducible upstream,
which prevents `decide`/`rfl` from evaluating the model on concrete
inputs; restore the default transparency for them. -/
set_option allowUnsafeReducibility true in
attribute [semireducible] Rat.add Rat.sub Rat.mul Rat.inv

namespace ObjToKmz

/-! ## Python string primitives

Models of the exact `str` operations the sources use: `str.strip()`,
`str.split()` (split on runs of whitespace, no empty tokens),
`str.startswith`, `str.split(' ', 1)`, and slicing `[:-1]` / `[-1]`.
All are defined over `List Char` and lifted to `String`. -/

/-- The whitespace characters recognised by Python's `str.strip()` and
`str.split()` (the ASCII subset relevant to text files). -/
def isSpaceChar (c : Char) : Bool :=
  c = ' ' || c = '\t' || c = '\n' || c = '\r' || c = '\x0b' || c = '\x0c'

/-- Remove trailing whitespace (Python `str.rstrip()`). -/
def dropTrailWs (l : List Char) : List Char :=
  (l.reverse.dropWhile isSpaceChar).reverse

/-- Python `str.strip()`: remove leading and trailing whitespace. -/
def stripChars (l : List Char) : List Char :=
  dropTrailWs (l.dropWhile isSpaceChar)

/-- Python `str.split()` with no separator: split on runs of whitespace,
producing no empty tokens.  Accumulator-based so the recursion is
structural. -/
def splitWsAux : List Char → List Char → List (List Char)
  | [], acc => if acc.isEmpty then [] else [acc.reverse]
  | c :: cs, acc =>
    if isSpaceChar c then
      if acc.isEmpty then splitWsAux cs [] else acc.reverse :: splitWsAux cs []
    else
      splitWsAux cs (c :: acc)

/-- Python `str.split()` (whitespace mode). -/
def splitWs (l : List Char) : List (List Char) := splitWsAux l []

/-- Python `s.split(sep, 1)[1]` for a single-character separator: the part
of the string after the first occurrence of `sep`, or `none` when `sep`
does not occur (in which case the Python indexing raises `IndexError`). -/
def afterFirstChar (sep : Char) : List Char → Option (List Char)
  | [] => none
  | c :: cs => if c = sep then some cs else afterFirstChar sep cs

/-- String-level wrappers. -/
def pyStrip (s : String) : String := ⟨stripChars s.toList⟩

def pySplit (s : String) : List String := (splitWs s.toList).map (⟨·⟩)

/-- Python `str.startswith` on strings. -/
def pyStartsWith (s pre : String) : Bool := pre.toList.isPrefixOf s.toList

/-! ## Numerals

Python `float(token)` / `int(token)` on the numeric literal shapes that
occur in OBJ and georeferencing data (optional sign, digits, optional
fractional part), plus the rendering used when the code writes numbers
back out.  Python float values are binary rationals and `repr` round-trips
them exactly; the model renders the exact rational value (`num` or
`num/den`) so that rendering and re-parsing round-trip exactly, which is
the property the Python pair has. -/

def isDigitCh (c : Char) : Bool := '0' ≤ c && c ≤ '9'

/-- Numeric value of a digit character. -/
def digitVal (c : Char) : ℕ := c.toNat - 48

/-- The digit character for `d < 10`. -/
def digitChar10 (d : ℕ) : Char :=
  match d with
  | 0 => '0' | 1 => '1' | 2 => '2' | 3 => '3' | 4 => '4'
  | 5 => '5' | 6 => '6' | 7 => '7' | 8 => '8' | _ => '9'

/-- Base-10 value of a digit string (as read left to right). -/
def digitsVal (l : List Char) : ℕ := l.foldl (fun a c => 10 * a + digitVal c) 0

/-- Parse a non-empty all-digit token. -/
def parseDigits (l : List Char) : Option ℕ :=
  if l ≠ [] ∧ l.all isDigitCh then some (digitsVal l) else none

/-- Decimal digit expansion, fuel-based so the recursion is structural
(and hence kernel-reducible); `fuel > n` always suffices. -/
def natDigitsAux : ℕ → ℕ → List Char
  | 0, _ => []
  | fuel + 1, n =>
    if n < 10 then [digitChar10 n]
    else natDigitsAux fuel (n / 10) ++ [digitChar10 (n % 10)]

/-- Decimal digit expansion of a natural number, most significant first. -/
def natDigits (n : ℕ) : List Char := natDigitsAux (n + 1) n

/-- Parse an unsigned numeral: `digits`, `digits.digits` (decimal) or
`digits/digits` (the exact-fraction rendering produced by `formatQ`). -/
def parseUQ (l : List Char) : Option ℚ :=
  match l.span (fun c => !(c = '.' || c = '/')) with
  | (ip, []) => (parseDigits ip).map (fun n => (n : ℚ))
  | (ip, '.' :: fp) => do
      let i ← parseDigits ip
      let f ← parseDigits fp
      pure ((i : ℚ) + (f : ℚ) / 10 ^ fp.length)
  | (ip, '/' :: dp) => do
      let n ← parseDigits ip
      let d ← parseDigits dp
      if d = 0 then none else pure ((n : ℚ) / (d : ℚ))
  | _ => none

/-- Model of Python `float(token)` on the numeral shapes above: optional
sign followed by an unsigned numeral.  `none` models `ValueError`. -/
def pyFloatChars (l : List Char) : Option ℚ :=
  match l with
  | [] => none
  | c :: r =>
    if c = '-' then (parseUQ r).map (fun q => -q)
    else if c = '+' then parseUQ r
    else parseUQ (c :: r)

def pyFloat (s : String) : Option ℚ := pyFloatChars s.toList

/-- Model of Python `int(token)`: optional sign followed by digits.
`none` models `ValueError`. -/
def pyIntChars (l : List Char) : Option ℤ :=
  match l with
  | [] => none
  | c :: r =>
    if c = '-' then (parseDigits r).map (fun n => -(n : ℤ))
    else if c = '+' then (parseDigits r).map (fun n => (n : ℤ))
    else (parseDigits (c :: r)).map (fun n => (n : ℤ))

def pyInt (s : String) : Option ℤ := pyIntChars s.toList

/-- Exact rendering of a rational value (models writing a Python float
back into the file; Python's float `repr` round-trips the value, and so
does this rendering through `pyFloat`). -/
def formatQChars (q : ℚ) : List Char :=
  (if q < 0 then ['-'] else []) ++ natDigits q.num.natAbs ++
    (if q.den = 1 then [] else '/' :: natDigits q.den)

def formatQ (q : ℚ) : String := ⟨formatQChars q⟩

/-- Decimal rendering of an integer (Python `f"{z}"` for an `int`). -/
def formatZ (z : ℤ) : String :=
  ⟨(if z < 0 then ['-'] else []) ++ natDigits z.natAbs⟩

/-! ## `z_offset_utils.py`

The Z-offset estimator and applicator.  Vertices are rational triples.
The external `pyransac3d.Plane.fit` call is randomized third-party code;
it is modelled by passing its outcome (`RansacFit`) as a parameter,
constrained by the predicate `RansacFit.candidate` below, which states
only facts guaranteed by the library's algorithm (the returned plane
passes through three distinct sampled input points; the inlier index
list is duplicate-free, in range, and contains every input point lying
exactly on the returned plane, such points being at distance 0 ≤ the
nonnegative threshold). -/

structure Vec3 where
  x : ℚ
  y : ℚ
  z : ℚ
deriving DecidableEq, Repr

/-- `VERTEX_PREFIX = 'v '` in `z_offset_utils.py`. -/
def vertexMark : String := "v "

/-- `EPSILON = 1e-6` (exact rational model of the small comparison
constant). -/
def EPSILON : ℚ := 1 / 1000000

/-- Outcome of the external RANSAC plane fit: `plane_eq = [A, B, C, D]`
and the inlier index list. -/
structure RansacFit where
  A : ℚ
  B : ℚ
  C : ℚ
  D : ℚ
  inliers : List ℕ
deriving Repr

/-- `A·x + B·y + C·z + D = 0`. -/
def RansacFit.onPlane (f : RansacFit) (p : Vec3) : Prop :=
  f.A * p.x + f.B * p.y + f.C * p.z + f.D = 0

/-- Modelled contract of `pyransac3d.Plane.fit(vertices, threshold, maxIteration)`:
every outcome the randomized algorithm can return satisfies this.
The plane is constructed through three distinct sampled input points and
normalised (so its coefficient vector is nonzero), and
`np.where(np.abs(dist_pt) <= thresh)[0]` yields a strictly increasing —
in particular duplicate-free — list of in-range indices that contains
every index whose point has distance exactly 0 from the plane (the
threshold is nonnegative). -/
def RansacFit.candidate (f : RansacFit) (vertices : List Vec3) : Prop :=
  (∃ i j k, i < j ∧ j < k ∧ k < vertices.length ∧
      f.onPlane (vertices.getD i ⟨0, 0, 0⟩) ∧
      f.onPlane (vertices.getD j ⟨0, 0, 0⟩) ∧
      f.onPlane (vertices.getD k ⟨0, 0, 0⟩)) ∧
    ¬(f.A = 0 ∧ f.B = 0 ∧ f.C = 0) ∧
    f.inliers.Nodup ∧
    (∀ m ∈ f.inliers, m < vertices.length) ∧
    (∀ m, m < vertices.length → f.onPlane (vertices.getD m ⟨0, 0, 0⟩) →
      m ∈ f.inliers)

/-- `np.mean` over a rational list (sum divided by length). -/
def listMean (l : List ℚ) : ℚ := l.sum / l.length

/-- Result of `_calculate_z_offset`; `verticalWarning` records the
`logger.warning("Plane is nearly vertical, ...")` call on the degenerate
branch (a non-fatal warning, not an error). -/
structure ZOffsetResult where
  offset : ℚ
  verticalWarning : Bool
deriving DecidableEq, Repr

/-- `_calculate_z_offset(vertices, threshold, max_iterations)` after the
external `plane.fit` call, as a function of the fit outcome:

    A, B, C, D = plane_eq
    if abs(C) > EPSILON:
        optimal_offset = -D / C
    else:
        optimal_offset = float(np.mean(vertices[inliers, 2]))
        logger.warning("Plane is nearly vertical, ...")
-/
def calculateZOffsetCore (vertices : List Vec3) (fit : RansacFit) : ZOffsetResult :=
  if EPSILON < |fit.C| then
    ⟨-fit.D / fit.C, false⟩
  else
    ⟨listMean (fit.inliers.map fun i => (vertices.getD i ⟨0, 0, 0⟩).z), true⟩

/-- `_extract_all_vertices_from_obj`: collect `[x, y, z]` from every
stripped line that starts with `'v '` and has at least 4 whitespace
tokens (shorter vertex lines are silently skipped here, unlike the
applicator); raise `ValueError` when no vertex parses. -/
def extractAllVerticesFromObj (lines : List String) : Except Unit (List Vec3) :=
  let step := fun (l : String) =>
    let l' := pyStrip l
    if pyStartsWith l' vertexMark then
      let parts := pySplit l'
      if 4 ≤ parts.length then
        match pyFloat (parts.getD 1 ""), pyFloat (parts.getD 2 ""),
            pyFloat (parts.getD 3 "") with
        | some x, some y, some z => some (Vec3.mk x y z)
        | _, _, _ => none
      else none
    else none
  let vertices := lines.filterMap step
  if vertices.isEmpty then .error () else .ok vertices

/-- `calculate_z_offset(obj_path, threshold, max_iterations)`: extract the
vertices, run the external RANSAC fit (outcome passed as parameter) and
derive the offset. -/
def calculate_z_offset (lines : List String) (fit : RansacFit) :
    Except Unit ZOffsetResult :=
  match extractAllVerticesFromObj lines with
  | .error e => .error e
  | .ok vertices => .ok (calculateZOffsetCore vertices fit)

/-- Error raised inside line processing (Python `ValueError`). -/
inductive VertexErr
  | invalidVertexFormat   -- `raise ValueError("Invalid vertex format")`
  | badNumeral            -- `float(...)` raised `ValueError`
deriving DecidableEq, Repr

/-- `_apply_z_offset_to_vertex_line(parts, z_offset)`:

    if len(parts) < 4: raise ValueError("Invalid vertex format")
    x = float(parts[1]); y = float(parts[2]); z = float(parts[3])
    z_fixed = z - z_offset
    return f"{VERTEX_PREFIX}{x} {y} {z_fixed}\n"
-/
def applyZOffsetToVertexLine (parts : List String) (z_offset : ℚ) :
    Except VertexErr String :=
  if parts.length < 4 then .error .invalidVertexFormat
  else
    match pyFloat (parts.getD 1 ""), pyFloat (parts.getD 2 ""),
        pyFloat (parts.getD 3 "") with
    | some x, some y, some z =>
        .ok (vertexMark ++ formatQ x ++ " " ++ formatQ y ++ " " ++
          formatQ (z - z_offset) ++ "\n")
    | _, _, _ => .error .badNumeral

/-- `_process_obj_line_with_z_offset(line, z_offset)`: blank lines and
non-vertex lines are returned unchanged (byte-identical); vertex lines
(stripped line starting with `'v '`) are rewritten. -/
def processObjLineWithZOffset (line : String) (z_offset : ℚ) :
    Except VertexErr String :=
  let stripped := pyStrip line
  if stripped.toList.isEmpty then .ok line
  else if pyStartsWith stripped vertexMark then
    applyZOffsetToVertexLine (pySplit stripped) z_offset
  else .ok line

/-- The streaming loop of `apply_z_offset_to_obj`: process lines in order,
writing each processed line to the output file until an error occurs.
Returns the lines actually written (the content of the output file) and
the error, if any. -/
def processLines (lines : List String) (z_offset : ℚ) :
    List String × Option VertexErr :=
  match lines with
  | [] => ([], none)
  | l :: ls =>
    match processObjLineWithZOffset l z_offset with
    | .error e => ([], some e)
    | .ok s =>
      let r := processLines ls z_offset
      (s :: r.1, r.2)

/-- Top-level error kinds of the program (`errors.py` classes plus the
Python builtins the code actually raises). -/
inductive PipeErr
  | georeferencingError
  | modelConversionError
  | fileProcessingError
  | validationError
  | fileNotFoundError     -- Python builtin FileNotFoundError
  | valueError            -- Python builtin ValueError
deriving DecidableEq, Repr

/-- `apply_z_offset_to_obj(input_obj, output_obj, z_offset)`: the output
file is opened with mode `'w'` before processing, so it exists at the
output path in every case; its content is the processed prefix.  Any
exception is re-raised as `FileProcessingError`.  Result: (call outcome,
content left at the output path). -/
def apply_z_offset_to_obj (inputLines : List String) (z_offset : ℚ) :
    Except PipeErr Unit × List String :=
  let r := processLines inputLines z_offset
  match r.2 with
  | some _ => (.error .fileProcessingError, r.1)
  | none => (.ok (), r.1)

/-! ## `georeferencing.py` -/

/-- The two-valued hemisphere enumeration. -/
inductive Hemisphere
  | NORTH
  | SOUTH
deriving DecidableEq, Repr

/-- The `code` character string carried by each enum value
(`("N", "north")` / `("S", "south")`). -/
def Hemisphere.code : Hemisphere → String
  | .NORTH => "N"
  | .SOUTH => "S"

/-- The `projection_value` carried by each enum value. -/
def Hemisphere.projectionValue : Hemisphere → String
  | .NORTH => "north"
  | .SOUTH => "south"

/-- `Hemisphere.from_code(code)`: scan the enumeration members in
declaration order and return the first whose `code` matches; raise
`ValueError` otherwise. -/
def Hemisphere.fromCode (c : String) : Option Hemisphere :=
  [Hemisphere.NORTH, Hemisphere.SOUTH].find? (fun h => h.code == c)

def WGS84_PROJ_STRING : String :=
  "+proj=longlat +ellps=WGS84 +datum=WGS84 +no_defs"

def UTM_PROJ_STRING_TEMPLATE : String :=
  "+proj=utm +ellps=WGS84 +datum=WGS84 +units=m +no_defs"

/-- The parsed anchor returned by `read_georeferencing_file`. -/
structure Anchor where
  easting : ℚ
  northing : ℚ
  utm_zone : ℤ
  hemisphere : Hemisphere
deriving DecidableEq, Repr

/-- The `try:` body of `read_georeferencing_file` over the file's lines;
`none` models any raised exception (`IndexError` on a missing line or
empty token list, `ValueError` from `float`/`int`/`from_code`):

    coord_system = lines[0].strip()
    coords = lines[1].strip().split()
    easting = float(coords[0]); northing = float(coords[1])
    parts = coord_system.split()
    utm_zone = int(parts[-1][:-1])
    hemisphere_str = parts[-1][-1]
    hemisphere = Hemisphere.from_code(hemisphere_str)
-/
def readGeorefLines (lines : List String) : Option Anchor := do
  let l0 ← lines.get? 0
  let l1 ← lines.get? 1
  let coords := pySplit (pyStrip l1)
  let c0 ← coords.get? 0
  let c1 ← coords.get? 1
  let easting ← pyFloat c0
  let northing ← pyFloat c1
  let parts := pySplit (pyStrip l0)
  let tok ← parts.getLast?
  let utm_zone ← pyInt ⟨tok.toList.dropLast⟩
  let hc ← tok.toList.getLast?
  let hemisphere ← Hemisphere.fromCode ⟨[hc]⟩
  pure ⟨easting, northing, utm_zone, hemisphere⟩

/-- `read_georeferencing_file(georef_path)`: any exception in the body is
wrapped into `GeoreferencingError`. -/
def read_georeferencing_file (lines : List String) : Except PipeErr Anchor :=
  match readGeorefLines lines with
  | some a => .ok a
  | none => .error .georeferencingError

/-- `utm_to_wgs84(easting, northing, utm_zone, hemisphere)`: assemble the
UTM source string from the fixed template plus zone and hemisphere
keyword, and delegate the transform to the external pyproj primitive
(passed as the parameter `transform`, taking the source and target
projection strings and the coordinate pair):

    utm_proj_string = f"{UTM_PROJ_STRING_TEMPLATE} +zone={utm_zone} +{hemisphere.projection_value}"
    transformer = pyproj.Transformer.from_crs(utm_proj_string, WGS84_PROJ_STRING, always_xy=True)
    longitude, latitude = transformer.transform(easting, northing)
-/
def utm_to_wgs84 (transform : String → String → ℚ × ℚ → ℚ × ℚ)
    (easting northing : ℚ) (utm_zone : ℤ) (hemisphere : Hemisphere) : ℚ × ℚ :=
  let utm_proj_string :=
    UTM_PROJ_STRING_TEMPLATE ++ " +zone=" ++ formatZ utm_zone ++ " +" ++
      hemisphere.projectionValue
  transform utm_proj_string WGS84_PROJ_STRING (easting, northing)

/-! ## Filesystem model and path helpers

The filesystem is a finite association of paths to line lists; a path
exists iff it has an entry (directories are entries with no lines). -/

structure FS where
  entries : List (String × List String)
deriving Repr

/-- `os.path.exists` / `Path.exists`. -/
def FS.exists? (fs : FS) (p : String) : Bool := fs.entries.any (·.1 == p)

/-- Read the lines of a file. -/
def FS.read? (fs : FS) (p : String) : Option (List String) :=
  (fs.entries.find? (·.1 == p)).map (·.2)

/-- Create or overwrite a file. -/
def FS.write (fs : FS) (p : String) (c : List String) : FS :=
  ⟨(p, c) :: fs.entries.filter (·.1 != p)⟩

/-- `os.path.dirname` / `Path.parent` (as used on the forward-slash paths
of this program): everything before the last `'/'`, `""` when there is
none. -/
def dirName (p : String) : String :=
  match (p.toList.reverse.span (· ≠ '/')).2 with
  | [] => ""
  | _ :: d => ⟨d.reverse⟩

/-- `os.path.basename`: everything after the last `'/'`. -/
def baseName (p : String) : String :=
  ⟨(p.toList.reverse.span (· ≠ '/')).1.reverse⟩

/-- `os.path.splitext(...)[0]` on a basename: strip the extension after
the last `'.'` (if any). -/
def stemOf (p : String) : String :=
  let b := (baseName p).toList
  match (b.reverse.span (· ≠ '.')).2 with
  | [] => ⟨b⟩
  | _ :: s => ⟨s.reverse⟩

/-- `os.path.join` / `Path./` for the non-absolute second argument case:
`dir + "/" + name`, or just `name` when the directory part is empty. -/
def joinPath (d f : String) : String := if d = "" then f else d ++ "/" ++ f

/-! ## `obj_parser.py` and `assimp_converter.py` texture discovery -/

def DIFFUSE_MAP_KEY : String := "map_Kd"

/-- `ObjParser._find_mtl_file(obj_path)` over the OBJ lines: the part of
the first `mtllib `-line after the first space, stripped. -/
def findMtlFile (objLines : List String) : Option String :=
  (objLines.find? (fun l => pyStartsWith l "mtllib ")).map
    (fun l => pyStrip ⟨(afterFirstChar ' ' l.toList).getD []⟩)

/-- `ObjParser._extract_texture_refs(mtl_path)`: empty when the material
file does not exist; otherwise collect the stripped `map_Kd` arguments
(set semantics: duplicates collapsed).  A `map_Kd` line without a space
raises `IndexError` (`.error`), caught by the caller. -/
def extractTextureRefs (fs : FS) (mtlPath : String) :
    Except Unit (List String) :=
  if fs.exists? mtlPath then
    match fs.read? mtlPath with
    | none => .error ()
    | some content =>
      content.foldlM
        (fun refs l =>
          if pyStartsWith l DIFFUSE_MAP_KEY then
            match afterFirstChar ' ' l.toList with
            | none => .error ()
            | some rest =>
              let t := pyStrip ⟨rest⟩
              if t ∈ refs then pure refs else pure (refs ++ [t])
          else pure refs)
        []
  else .ok []

/-- `ObjParser.get_texture_files(obj_path)`: find the material-library
reference and extract its texture references; reading a missing OBJ file
raises (`.error`), caught by the caller. -/
def getTextureFiles (fs : FS) (objPath : String) :
    Except Unit (List String) :=
  match fs.read? objPath with
  | none => .error ()
  | some objLines =>
    match findMtlFile objLines with
    | some m =>
      if m = "" then .ok []
      else extractTextureRefs fs (joinPath (dirName objPath) m)
    | none => .ok []

/-- `get_texture_paths(obj_path)` in `assimp_converter.py`: best-effort —
keep only references that exist on disk, and degrade to `[]` on any
exception (`except Exception: return []`). -/
def get_texture_paths (fs : FS) (objPath : String) : List String :=
  match getTextureFiles fs objPath with
  | .error _ => []
  | .ok refs =>
    (refs.map (fun r => joinPath (dirName objPath) r)).filter
      (fun p => fs.exists? p)

/-! ## `pipeline.py`

`Pipeline.convert_model`, with its filesystem effects made explicit and
the external collaborators (tempfile, pyransac3d, pyproj, assimp, the
KML template file that lives next to the script) supplied through
`PipeEnv`.  Besides the outcome and the final filesystem, the model
returns the ordered list of pipeline stages that were entered, so that
"before doing any other work" claims are statable. -/

inductive PipeEvent
  | readGeoref
  | computeOffset
  | applyOffset
  | convertDae
  | getTextures
  | packKmz
deriving DecidableEq, Repr

structure PipeEnv where
  /-- the directory created by `tempfile.TemporaryDirectory()` -/
  tempDir : String
  /-- outcome of the randomized external RANSAC fit -/
  fit : RansacFit
  /-- the external pyproj transform -/
  transform : String → String → ℚ × ℚ → ℚ × ℚ
  /-- whether the external assimp invocation succeeds -/
  converterOk : Bool
  /-- whether `kml_template.xml` (next to the script) exists -/
  templateOk : Bool

/-- `Pipeline._apply_z_offset` output path:
`os.path.join(obj_dir, f"{obj_name}_aligned.obj")` — next to the input
mesh, not inside the temporary directory. -/
def alignedObjPath (obj : String) : String :=
  joinPath (dirName obj) (stemOf obj ++ "_aligned.obj")

/-- Exit of the `with tempfile.TemporaryDirectory()` block: the temporary
directory and everything under it are removed (on normal and exceptional
exits alike). -/
def tempCleanup (td : String) (fs : FS) : FS :=
  ⟨fs.entries.filter
    (fun e => !(e.1 == td || (td ++ "/").toList.isPrefixOf e.1.toList))⟩

/-- `Pipeline.convert_model(obj_file, georef_file, output_kmz, z_offset,
no_textures, heading, tilt, roll)`.  The orientation angles are opaque
pass-through configuration and are omitted.  Stage order follows the
source: validate inputs, ensure the output directory, read the
georeferencing file, convert the anchor, resolve the Z offset, then
inside the temporary-directory scope: apply the offset (writing
`*_aligned.obj` next to the input) when the offset is nonzero, convert
to DAE inside the temporary directory, discover textures, build the KML
content and pack the KMZ. -/
def convert_model (env : PipeEnv) (fs0 : FS)
    (obj_file georef_file output_kmz : String)
    (z_offset? : Option ℚ) (no_textures : Bool) :
    Except PipeErr Unit × FS × List PipeEvent :=
  -- _validate_inputs: raises the builtin FileNotFoundError
  if ¬ fs0.exists? obj_file then (.error .fileNotFoundError, fs0, [])
  else if ¬ fs0.exists? georef_file then (.error .fileNotFoundError, fs0, [])
  else
    -- _ensure_output_directory
    let outDir := dirName output_kmz
    let fs1 := if outDir ≠ "" ∧ ¬ fs0.exists? outDir
      then fs0.write outDir [] else fs0
    match read_georeferencing_file ((fs1.read? georef_file).getD []) with
    | .error e => (.error e, fs1, [.readGeoref])
    | .ok anchor =>
      let _lonlat := utm_to_wgs84 env.transform anchor.easting
        anchor.northing anchor.utm_zone anchor.hemisphere
      let zres : Except PipeErr ℚ × List PipeEvent :=
        match z_offset? with
        | some z => (.ok z, [.readGeoref])
        | none =>
          match calculate_z_offset ((fs1.read? obj_file).getD []) env.fit with
          | .error _ => (.error .valueError, [.readGeoref, .computeOffset])
          | .ok r => (.ok r.offset, [.readGeoref, .computeOffset])
      match zres with
      | (.error e, tr) => (.error e, fs1, tr)
      | (.ok z, tr) =>
        -- with tempfile.TemporaryDirectory() as temp_dir:
        let fs2 := fs1.write env.tempDir []
        let applyStep : Except PipeErr Unit × FS × String × List PipeEvent :=
          if z ≠ 0 then
            let ar := apply_z_offset_to_obj ((fs2.read? obj_file).getD []) z
            let fs3 := fs2.write (alignedObjPath obj_file) ar.2
            (ar.1, fs3, alignedObjPath obj_file, tr ++ [.applyOffset])
          else (.ok (), fs2, obj_file, tr)
        match applyStep with
        | (.error e, fs3, _, tr1) =>
            (.error e, tempCleanup env.tempDir fs3, tr1)
        | (.ok _, fs3, obj_file_to_convert, tr1) =>
          if ¬ env.converterOk then
            (.error .modelConversionError, tempCleanup env.tempDir fs3,
              tr1 ++ [.convertDae])
          else
            let dae_path :=
              joinPath env.tempDir (stemOf obj_file_to_convert ++ ".dae")
            let fs4 := fs3.write dae_path []
            let tr2 := tr1 ++ [.convertDae]
            let _texture_files :=
              if no_textures then [] else get_texture_paths fs4 obj_file
            let tr3 := if no_textures then tr2 else tr2 ++ [.getTextures]
            if ¬ env.templateOk then
              -- create_kml_content raises FileNotFoundError
              (.error .fileNotFoundError, tempCleanup env.tempDir fs4, tr3)
            else
              let fs5 := fs4.write output_kmz []
              (.ok (), tempCleanup env.tempDir fs5, tr3 ++ [.packKmz])

/-! ## Spec-side definitions (refinement targets) -/

/-- Insertion into a sorted rational list. -/
def insertSortedQ (x : ℚ) : List ℚ → List ℚ
  | [] => [x]
  | y :: ys => if x ≤ y then x :: y :: ys else y :: insertSortedQ x ys

/-- Insertion sort on rationals. -/
def sortQ (l : List ℚ) : List ℚ := l.foldr insertSortedQ []

/-- Modelled from the spec: the percentile ground-estimation strategy —
"collect all vertical coordinates, compute a fixed low percentile (30th)
of that distribution, and report it as VerticalOffset", with the
nearest-rank percentile convention under which "the 30th percentile of
0..99 by standard definition" is 29 (the ⌈0.3·n⌉-th smallest value).
No function in `src/` computes this. -/
def percentile30Spec (zs : List ℚ) : ℚ :=
  (sortQ zs).getD ((30 * zs.length + 99) / 100 - 1) 0

/-- The shape of every line written by `_apply_z_offset_to_vertex_line`:
`f"{VERTEX_PREFIX}{x} {y} {z_fixed}\n"`. -/
def vertexOutLine (x y z : ℚ) : String :=
  vertexMark ++ formatQ x ++ " " ++ formatQ y ++ " " ++ formatQ z ++ "\n"

/-- Observation: whether a line is treated as a vertex declaration by
`_process_obj_line_with_z_offset` (stripped line nonempty and starting
with `'v '`). -/
def isVertexLine (l : String) : Bool :=
  !(pyStrip l).toList.isEmpty && pyStartsWith (pyStrip l) vertexMark

/-- Observation: the vertical coordinate a line carries (the value of its
fourth whitespace token). -/
def lineZ? (l : String) : Option ℚ :=
  pyFloat ((pySplit (pyStrip l)).getD 3 "")

/-- Observation: a vertex declaration line with fewer than four
whitespace-separated tokens (the shape that makes
`_apply_z_offset_to_vertex_line` raise `ValueError`). -/
def isMalformedVertexLine (l : String) : Bool :=
  isVertexLine l && decide ((pySplit (pyStrip l)).length < 4)

/-- The synthetic mesh of the spec's end-to-end scenario, made concrete:
`n` vertices with `Z ∈ {0, …, n−1}`, placed at `(i, i², i)` so that they
lie exactly on the plane `x − z = 0` and no three are collinear. -/
def ptsDiag (n : ℕ) : List Vec3 :=
  (List.range n).map fun i : ℕ => ⟨(i : ℚ), (i : ℚ) * (i : ℚ), (i : ℚ)⟩

/-- A plane-fit outcome for `ptsDiag n` that the RANSAC contract admits:
the plane `x − z = 0` with every point an inlier. -/
def diagFit (n : ℕ) : RansacFit := ⟨1, 0, -1, 0, List.range n⟩

/-! ## Infrastructure lemmas: digits and numeral round-trip -/

theorem isDigitCh_digitChar10 (d : ℕ) (hd : d < 10) :
    isDigitCh (digitChar10 d) = true := by
  interval_cases d <;> decide

theorem digitVal_digitChar10 (d : ℕ) (hd : d < 10) :
    digitVal (digitChar10 d) = d := by
  interval_cases d <;> decide

theorem isDigitCh_not_space (c : Char) (h : isDigitCh c = true) :
    isSpaceChar c = false := by
  simp only [isDigitCh, Bool.and_eq_true, decide_eq_true_eq] at h
  simp only [isSpaceChar, Bool.or_eq_false_iff, decide_eq_false_iff_not]
  refine ⟨⟨⟨⟨⟨?_, ?_⟩, ?_⟩, ?_⟩, ?_⟩, ?_⟩ <;>
    (rintro rfl; revert h; decide)

theorem isDigitCh_ne_dot (c : Char) (h : isDigitCh c = true) : c ≠ '.' := by
  rintro rfl; revert h; decide

theorem isDigitCh_ne_slash (c : Char) (h : isDigitCh c = true) : c ≠ '/' := by
  rintro rfl; revert h; decide

theorem isDigitCh_ne_minus (c : Char) (h : isDigitCh c = true) : c ≠ '-' := by
  rintro rfl; revert h; decide

theorem isDigitCh_ne_plus (c : Char) (h : isDigitCh c = true) : c ≠ '+' := by
  rintro rfl; revert h; decide

theorem natDigitsAux_fuel_inv :
    ∀ f f' n : ℕ, n < f → n < f' → natDigitsAux f n = natDigitsAux f' n := by
  intro f
  induction f with
  | zero => intro f' n h; omega
  | succ f ih =>
    intro f' n h h'
    cases f' with
    | zero => omega
    | succ f' =>
      unfold natDigitsAux
      by_cases h10 : n < 10
      · rw [if_pos h10, if_pos h10]
      · rw [if_neg h10, if_neg h10,
          ih f' (n / 10) (by omega) (by omega)]

theorem natDigits_eq (n : ℕ) :
    natDigits n = if n < 10 then [digitChar10 n]
      else natDigits (n / 10) ++ [digitChar10 (n % 10)] := by
  unfold natDigits
  rw [show natDigitsAux (n + 1) n =
      if n < 10 then [digitChar10 n]
      else natDigitsAux n (n / 10) ++ [digitChar10 (n % 10)] from rfl]
  by_cases h10 : n < 10
  · rw [if_pos h10, if_pos h10]
  · rw [if_neg h10, if_neg h10,
      natDigitsAux_fuel_inv n (n / 10 + 1) (n / 10)
        (by
          have h := Nat.div_lt_self (show 0 < n by omega)
            (show (1 : ℕ) < 10 by norm_num)
          omega)
        (by omega)]

theorem natDigits_ne_nil (n : ℕ) : natDigits n ≠ [] := by
  rw [natDigits_eq]
  split <;> simp

theorem natDigits_all_digits (n : ℕ) :
    ∀ c ∈ natDigits n, isDigitCh c = true := by
  induction n using Nat.strong_induction_on with
  | _ n ih =>
    rw [natDigits_eq]
    split
    · next h =>
      intro c hc
      simp only [List.mem_singleton] at hc
      subst hc
      exact isDigitCh_digitChar10 n h
    · next h =>
      intro c hc
      rcases List.mem_append.mp hc with hc | hc
      · exact ih (n / 10) (Nat.div_lt_self (by omega) (by omega)) c hc
      · simp only [List.mem_singleton] at hc
        subst hc
        exact isDigitCh_digitChar10 _ (Nat.mod_lt _ (by omega))

theorem digitsVal_append (l : List Char) (c : Char) :
    digitsVal (l ++ [c]) = 10 * digitsVal l + digitVal c := by
  simp [digitsVal, List.foldl_append]

theorem digitsVal_natDigits (n : ℕ) : digitsVal (natDigits n) = n := by
  induction n using Nat.strong_induction_on with
  | _ n ih =>
    rw [natDigits_eq]
    split
    · next h =>
      simp [digitsVal, digitVal_digitChar10 n h]
    · next h =>
      rw [digitsVal_append, ih (n / 10) (Nat.div_lt_self (by omega) (by omega)),
        digitVal_digitChar10 _ (Nat.mod_lt _ (by omega))]
      omega

theorem parseDigits_natDigits (n : ℕ) : parseDigits (natDigits n) = some n := by
  rw [parseDigits, if_pos, digitsVal_natDigits]
  exact ⟨natDigits_ne_nil n, List.all_eq_true.mpr (natDigits_all_digits n)⟩

/-! ## Infrastructure lemmas: takeWhile / dropWhile / span -/

theorem takeWhile_append_all {p : Char → Bool} {w : List Char}
    (h : ∀ c ∈ w, p c = true) (l : List Char) :
    (w ++ l).takeWhile p = w ++ l.takeWhile p := by
  induction w with
  | nil => simp
  | cons c cs ih =>
    simp only [List.cons_append, List.takeWhile_cons,
      h c (List.mem_cons_self c cs), if_true, List.cons.injEq, true_and]
    exact ih fun c hc => h c (List.mem_cons_of_mem _ hc)

theorem dropWhile_append_all {p : Char → Bool} {w : List Char}
    (h : ∀ c ∈ w, p c = true) (l : List Char) :
    (w ++ l).dropWhile p = l.dropWhile p := by
  induction w with
  | nil => simp
  | cons c cs ih =>
    simp only [List.cons_append, List.dropWhile_cons,
      h c (List.mem_cons_self c cs), if_true]
    exact ih fun c hc => h c (List.mem_cons_of_mem _ hc)

theorem takeWhile_all {p : Char → Bool} {w : List Char}
    (h : ∀ c ∈ w, p c = true) : w.takeWhile p = w := by
  have := takeWhile_append_all h []
  simpa using this

theorem dropWhile_all {p : Char → Bool} {w : List Char}
    (h : ∀ c ∈ w, p c = true) : w.dropWhile p = [] := by
  have := dropWhile_append_all h []
  simpa using this

/-! ## Infrastructure lemmas: `parseUQ` / `pyFloatChars` round-trip -/

theorem parseUQ_natDigits (n : ℕ) : parseUQ (natDigits n) = some (n : ℚ) := by
  have hall : ∀ c ∈ natDigits n, (!(c = '.' || c = '/')) = true := by
    intro c hc
    have hd := natDigits_all_digits n c hc
    simp [isDigitCh_ne_dot c hd, isDigitCh_ne_slash c hd]
  rw [parseUQ, List.span_eq_take_drop, takeWhile_all hall, dropWhile_all hall]
  simp [parseDigits_natDigits]

theorem parseUQ_frac (a d : ℕ) (hd : d ≠ 0) :
    parseUQ (natDigits a ++ '/' :: natDigits d) = some ((a : ℚ) / (d : ℚ)) := by
  have hall : ∀ c ∈ natDigits a, (!(c = '.' || c = '/')) = true := by
    intro c hc
    have h := natDigits_all_digits a c hc
    simp [isDigitCh_ne_dot c h, isDigitCh_ne_slash c h]
  rw [parseUQ, List.span_eq_take_drop, takeWhile_append_all hall,
    dropWhile_append_all hall]
  simp [parseDigits_natDigits, hd]

theorem pyFloatChars_formatQChars (q : ℚ) :
    pyFloatChars (formatQChars q) = some q := by
  have hnum : ((q.num.natAbs : ℕ) : ℚ) = |(q.num : ℚ)| := by
    rw [Int.cast_natAbs, Int.cast_abs]
  have habs : ((q.num.natAbs : ℕ) : ℚ) / (q.den : ℚ) = |q| := by
    rw [hnum, ← abs_of_pos (show (0 : ℚ) < (q.den : ℚ) by exact_mod_cast q.pos),
      ← abs_div, Rat.num_div_den]
  have hbody : parseUQ (natDigits q.num.natAbs ++
      (if q.den = 1 then [] else '/' :: natDigits q.den)) = some |q| := by
    by_cases hd1 : q.den = 1
    · rw [if_pos hd1, List.append_nil, parseUQ_natDigits]
      have : ((q.num.natAbs : ℕ) : ℚ) = |q| := by
        rw [← habs, hd1]
        norm_num
      rw [this]
    · rw [if_neg hd1, parseUQ_frac _ _ q.den_nz, habs]
  rcases lt_or_le q 0 with hq | hq
  · have : formatQChars q = '-' :: (natDigits q.num.natAbs ++
        (if q.den = 1 then [] else '/' :: natDigits q.den)) := by
      simp [formatQChars, hq]
    rw [this, pyFloatChars, if_pos rfl, hbody]
    simp [abs_of_neg hq]
  · have : formatQChars q = natDigits q.num.natAbs ++
        (if q.den = 1 then [] else '/' :: natDigits q.den) := by
      simp [formatQChars, not_lt.mpr hq]
    rw [this]
    obtain ⟨c, w, hw⟩ : ∃ c w, natDigits q.num.natAbs = c :: w := by
      cases h : natDigits q.num.natAbs with
      | nil => exact absurd h (natDigits_ne_nil _)
      | cons c w => exact ⟨c, w, rfl⟩
    have hc : isDigitCh c = true :=
      natDigits_all_digits _ c (by rw [hw]; exact List.mem_cons_self c w)
    rw [hw, List.cons_append, pyFloatChars,
      if_neg (isDigitCh_ne_minus c hc), if_neg (isDigitCh_ne_plus c hc),
      ← List.cons_append, ← hw, hbody, abs_of_nonneg hq]

theorem pyFloat_formatQ (q : ℚ) : pyFloat (formatQ q) = some q := by
  have : (formatQ q).toList = formatQChars q := rfl
  rw [pyFloat, this, pyFloatChars_formatQChars]

theorem formatQChars_ne_nil (q : ℚ) : formatQChars q ≠ [] := by
  unfold formatQChars
  intro h
  rcases List.append_eq_nil.mp h with ⟨h1, _⟩
  rcases List.append_eq_nil.mp h1 with ⟨_, h3⟩
  exact natDigits_ne_nil _ h3

theorem formatQChars_no_ws (q : ℚ) :
    ∀ c ∈ formatQChars q, isSpaceChar c = false := by
  intro c hc
  unfold formatQChars at hc
  rcases List.mem_append.mp hc with hc | hc
  · rcases List.mem_append.mp hc with hc | hc
    · have hm : c = '-' := by split at hc <;> simp_all
      subst hm; decide
    · exact isDigitCh_not_space c (natDigits_all_digits _ c hc)
  · split at hc
    · simp at hc
    · rcases List.mem_cons.mp hc with hc | hc
      · subst hc; decide
      · exact isDigitCh_not_space c (natDigits_all_digits _ c hc)

/-! ## Infrastructure lemmas: whitespace splitting and stripping -/

theorem splitWsAux_append_nonws {w : List Char}
    (h : ∀ c ∈ w, isSpaceChar c = false) (r acc : List Char) :
    splitWsAux (w ++ r) acc = splitWsAux r (w.reverse ++ acc) := by
  induction w generalizing acc with
  | nil => simp
  | cons c cs ih =>
    simp only [List.cons_append, splitWsAux, h c (List.mem_cons_self c cs),
      Bool.false_eq_true, if_false, List.append_eq]
    rw [ih (fun c hc => h c (List.mem_cons_of_mem _ hc))]
    simp

theorem splitWsAux_ws_cons {c : Char} (hc : isSpaceChar c = true)
    (l acc : List Char) (hacc : acc ≠ []) :
    splitWsAux (c :: l) acc = acc.reverse :: splitWsAux l [] := by
  simp only [splitWsAux, hc, if_true]
  rw [if_neg]
  simp [hacc]

theorem splitWsAux_all_ws {l : List Char}
    (h : ∀ c ∈ l, isSpaceChar c = true) : splitWsAux l [] = [] := by
  induction l with
  | nil => rfl
  | cons c cs ih =>
    simp only [splitWsAux, h c (List.mem_cons_self c cs), if_true,
      List.isEmpty_nil, if_true]
    exact ih fun c hc => h c (List.mem_cons_of_mem _ hc)

theorem splitWs_token_cons {w : List Char} (hw : w ≠ [])
    (hnw : ∀ c ∈ w, isSpaceChar c = false) {c : Char}
    (hc : isSpaceChar c = true) (rest : List Char) :
    splitWs (w ++ c :: rest) = w :: splitWs rest := by
  unfold splitWs
  rw [splitWsAux_append_nonws hnw, List.append_nil,
    splitWsAux_ws_cons hc _ _ (by simpa using hw), List.reverse_reverse]

theorem splitWs_token_ws_end {w s : List Char} (hw : w ≠ [])
    (hnw : ∀ c ∈ w, isSpaceChar c = false)
    (hs : ∀ c ∈ s, isSpaceChar c = true) :
    splitWs (w ++ s) = [w] := by
  unfold splitWs
  rw [splitWsAux_append_nonws hnw, List.append_nil]
  cases s with
  | nil =>
    simp only [splitWsAux, List.isEmpty_eq_true, List.reverse_eq_nil_iff]
    rw [if_neg hw, List.reverse_reverse]
  | cons c cs =>
    rw [splitWsAux_ws_cons (hs c (List.mem_cons_self c cs)) _ _
        (by simpa using hw), List.reverse_reverse,
      splitWsAux_all_ws fun c hc => hs c (List.mem_cons_of_mem _ hc)]

theorem dropTrailWs_append_nonws {y z : List Char} (hz : z ≠ [])
    (h : ∀ c ∈ z, isSpaceChar c = false) :
    dropTrailWs (y ++ z) = y ++ z := by
  unfold dropTrailWs
  rw [List.reverse_append]
  obtain ⟨c, t, hct⟩ : ∃ c t, z.reverse = c :: t := by
    cases hz' : z.reverse with
    | nil => exact absurd (List.reverse_eq_nil_iff.mp hz') hz
    | cons c t => exact ⟨c, t, rfl⟩
  have hc : isSpaceChar c = false :=
    h c (List.mem_reverse.mp (by rw [hct]; exact List.mem_cons_self c t))
  rw [hct, List.cons_append, List.dropWhile_cons, hc]
  simp only [Bool.false_eq_true, if_false]
  rw [← List.cons_append, ← hct, ← List.reverse_append, List.reverse_reverse]

theorem dropTrailWs_ws_end {x : List Char} {c : Char}
    (hc : isSpaceChar c = true) : dropTrailWs (x ++ [c]) = dropTrailWs x := by
  unfold dropTrailWs
  rw [List.reverse_append, List.reverse_singleton, List.singleton_append,
    List.dropWhile_cons, hc]
  simp

/-! ## Infrastructure lemmas: the rewritten vertex line -/

theorem vertexOutLine_toList (x y z : ℚ) :
    (vertexOutLine x y z).toList =
      'v' :: ' ' :: (formatQChars x ++ ' ' ::
        (formatQChars y ++ ' ' :: (formatQChars z ++ ['\n']))) := by
  simp [vertexOutLine, vertexMark, formatQ, String.toList]

theorem stripChars_vertexOut (x y z : ℚ) :
    stripChars ((vertexOutLine x y z).toList) =
      'v' :: ' ' :: (formatQChars x ++ ' ' ::
        (formatQChars y ++ ' ' :: formatQChars z)) := by
  rw [vertexOutLine_toList]
  unfold stripChars
  rw [List.dropWhile_cons]
  simp only [show isSpaceChar 'v' = false from rfl, Bool.false_eq_true, if_false]
  have h1 : 'v' :: ' ' :: (formatQChars x ++ ' ' ::
      (formatQChars y ++ ' ' :: (formatQChars z ++ ['\n']))) =
      ('v' :: ' ' :: (formatQChars x ++ ' ' ::
        (formatQChars y ++ ' ' :: formatQChars z))) ++ ['\n'] := by
    simp
  have h2 : 'v' :: ' ' :: (formatQChars x ++ ' ' ::
      (formatQChars y ++ ' ' :: formatQChars z)) =
      ('v' :: ' ' :: (formatQChars x ++ ' ' :: (formatQChars y ++ [' ']))) ++
        formatQChars z := by
    simp
  rw [h1, dropTrailWs_ws_end (by decide), h2,
    dropTrailWs_append_nonws (formatQChars_ne_nil z) (formatQChars_no_ws z)]

theorem splitWs_vertexOut (x y z : ℚ) :
    splitWs ('v' :: ' ' :: (formatQChars x ++ ' ' ::
        (formatQChars y ++ ' ' :: formatQChars z))) =
      [['v'], formatQChars x, formatQChars y, formatQChars z] := by
  have hx := formatQChars_no_ws x
  have hy := formatQChars_no_ws y
  have hz := formatQChars_no_ws z
  have h0 : ('v' :: ' ' :: (formatQChars x ++ ' ' ::
      (formatQChars y ++ ' ' :: formatQChars z))) =
      ['v'] ++ ' ' :: (formatQChars x ++ ' ' ::
        (formatQChars y ++ ' ' :: formatQChars z)) := rfl
  rw [h0, splitWs_token_cons (by simp) (by intro c hc; simp at hc; subst hc; rfl)
      (by decide),
    splitWs_token_cons (formatQChars_ne_nil x) hx (by decide),
    splitWs_token_cons (formatQChars_ne_nil y) hy (by decide),
    show splitWs (formatQChars z) = [formatQChars z] from by
      have := splitWs_token_ws_end (formatQChars_ne_nil z) hz
        (s := []) (by intro c hc; simp at hc)
      simpa using this]

theorem pyStrip_vertexOut (x y z : ℚ) :
    pyStrip (vertexOutLine x y z) =
      ⟨'v' :: ' ' :: (formatQChars x ++ ' ' ::
        (formatQChars y ++ ' ' :: formatQChars z))⟩ := by
  unfold pyStrip
  rw [stripChars_vertexOut]

theorem pySplit_vertexOut_strip (x y z : ℚ) :
    pySplit (pyStrip (vertexOutLine x y z)) =
      ["v", formatQ x, formatQ y, formatQ z] := by
  rw [pyStrip_vertexOut]
  unfold pySplit
  rw [show (String.mk ('v' :: ' ' :: (formatQChars x ++ ' ' ::
      (formatQChars y ++ ' ' :: formatQChars z)))).toList =
      'v' :: ' ' :: (formatQChars x ++ ' ' ::
        (formatQChars y ++ ' ' :: formatQChars z)) from rfl,
    splitWs_vertexOut]
  rfl

theorem applyZOffsetToVertexLine_ok {parts : List String} (o : ℚ) {x y z : ℚ}
    (hlen : 4 ≤ parts.length)
    (hx : pyFloat (parts.getD 1 "") = some x)
    (hy : pyFloat (parts.getD 2 "") = some y)
    (hz : pyFloat (parts.getD 3 "") = some z) :
    applyZOffsetToVertexLine parts o = .ok (vertexOutLine x y (z - o)) := by
  unfold applyZOffsetToVertexLine
  rw [if_neg (by omega), hx, hy, hz]
  rfl

theorem processObjLine_vertexOut (x y z o : ℚ) :
    processObjLineWithZOffset (vertexOutLine x y z) o =
      .ok (vertexOutLine x y (z - o)) := by
  unfold processObjLineWithZOffset
  rw [pyStrip_vertexOut]
  simp only [String.toList, List.isEmpty_cons, Bool.false_eq_true, if_false]
  rw [if_pos (by simp [pyStartsWith, vertexMark, List.isPrefixOf, String.toList]),
    show (String.mk ('v' :: ' ' :: (formatQChars x ++ ' ' ::
        (formatQChars y ++ ' ' :: formatQChars z)))) =
      pyStrip (vertexOutLine x y z) from (pyStrip_vertexOut x y z).symm,
    pySplit_vertexOut_strip]
  exact applyZOffsetToVertexLine_ok o (by simp)
    (by simpa using pyFloat_formatQ x) (by simpa using pyFloat_formatQ y)
    (by simpa using pyFloat_formatQ z)

theorem lineZ_vertexOut (x y z : ℚ) :
    lineZ? (vertexOutLine x y z) = some z := by
  unfold lineZ?
  rw [pySplit_vertexOut_strip]
  simpa using pyFloat_formatQ z

/-! ## Line-level behaviour of the offset applicator -/

theorem processObjLine_non_vertex {l : String} (o : ℚ)
    (h : isVertexLine l = false) :
    processObjLineWithZOffset l o = .ok l := by
  unfold processObjLineWithZOffset
  unfold isVertexLine at h
  by_cases he : (pyStrip l).toList.isEmpty = true
  · rw [if_pos he]
  · rw [if_neg he]
    have hsw : pyStartsWith (pyStrip l) vertexMark = false := by
      rcases Bool.and_eq_false_iff.mp h with h' | h'
      · exact absurd (by simpa using h') he
      · exact h'
    rw [if_neg (by simp [hsw])]

theorem processObjLine_vertex_inv {l s : String} {o : ℚ}
    (hv : isVertexLine l = true)
    (h : processObjLineWithZOffset l o = .ok s) :
    ∃ x y z, lineZ? l = some z ∧ s = vertexOutLine x y (z - o) := by
  unfold processObjLineWithZOffset at h
  simp only [isVertexLine, Bool.and_eq_true, Bool.not_eq_true'] at hv
  obtain ⟨hne, hsw⟩ := hv
  rw [if_neg (by simp_all), if_pos hsw] at h
  unfold applyZOffsetToVertexLine at h
  by_cases hlen : (pySplit (pyStrip l)).length < 4
  · rw [if_pos hlen] at h
    exact absurd h (by simp)
  · rw [if_neg hlen] at h
    cases hx : pyFloat ((pySplit (pyStrip l)).getD 1 "") <;>
      cases hy : pyFloat ((pySplit (pyStrip l)).getD 2 "") <;>
        cases hz : pyFloat ((pySplit (pyStrip l)).getD 3 "") <;>
          rw [hx, hy, hz] at h <;> simp at h
    next x y z =>
      exact ⟨x, y, z, hz, h.symm⟩

theorem processObjLine_malformed {l : String} (o : ℚ)
    (h : isMalformedVertexLine l = true) :
    processObjLineWithZOffset l o = .error .invalidVertexFormat := by
  simp only [isMalformedVertexLine, isVertexLine, Bool.and_eq_true,
    Bool.not_eq_true', decide_eq_true_eq] at h
  obtain ⟨⟨hne, hsw⟩, hlen⟩ := h
  unfold processObjLineWithZOffset
  rw [if_neg (by simp_all), if_pos hsw]
  unfold applyZOffsetToVertexLine
  rw [if_pos (by simpa using hlen)]

theorem isVertexLine_vertexOut (x y z : ℚ) :
    isVertexLine (vertexOutLine x y z) = true := by
  unfold isVertexLine
  rw [pyStrip_vertexOut]
  simp [pyStartsWith, vertexMark, List.isPrefixOf, String.toList]

theorem processLines_cons_ok {l s : String} {o : ℚ}
    (h : processObjLineWithZOffset l o = .ok s) (ls : List String) :
    processLines (l :: ls) o =
      (s :: (processLines ls o).1, (processLines ls o).2) := by
  simp only [processLines, h]

theorem processLines_cons_error {l : String} {e : VertexErr} {o : ℚ}
    (h : processObjLineWithZOffset l o = .error e) (ls : List String) :
    processLines (l :: ls) o = ([], some e) := by
  simp only [processLines, h]

/-! ## Claim C4 -/

/-- C4: for every mesh accepted by the offset applicator (every vertex
declaration line has at least four tokens with numeric coordinates, which
is exactly when the first application succeeds) and every offset `o`,
applying offset `o` and then offset `-o` succeeds and reproduces the
original vertical coordinate of every vertex line exactly, while every
non-vertex line is byte-identical to the original. -/
theorem offset_application_roundtrip (lines out1 : List String) (o : ℚ)
    (h : processLines lines o = (out1, none)) :
    ∃ out2, processLines out1 (-o) = (out2, none) ∧
      out2.length = lines.length ∧
      ∀ i, i < lines.length →
        (isVertexLine (lines.getD i "") = false →
          out2.getD i "" = lines.getD i "") ∧
        (isVertexLine (lines.getD i "") = true →
          lineZ? (out2.getD i "") = lineZ? (lines.getD i "")) := by
  induction lines generalizing out1 with
  | nil =>
    simp only [processLines, Prod.mk.injEq] at h
    refine ⟨[], by simp [processLines, ← h.1], by simp [← h.1], ?_⟩
    intro i hi
    exact absurd hi (by simp)
  | cons l ls ih =>
    cases hp : processObjLineWithZOffset l o with
    | error e =>
      rw [processLines_cons_error hp ls] at h
      simp at h
    | ok s =>
      rw [processLines_cons_ok hp ls] at h
      simp only [Prod.mk.injEq] at h
      obtain ⟨h1, h2⟩ := h
      obtain ⟨out2', ho2, hlen, hprop⟩ := ih (processLines ls o).1 (by
        rw [← h2])
      cases hv : isVertexLine l with
      | false =>
        have hs : s = l := by
          have hnl := processObjLine_non_vertex o hv
          rw [hnl] at hp
          exact (Except.ok.inj hp).symm
        subst hs
        refine ⟨s :: out2', ?_, by simp [← h1, hlen], ?_⟩
        · rw [← h1, processLines_cons_ok (processObjLine_non_vertex (-o) hv),
            ho2]
        · intro i hi
          cases i with
          | zero =>
            refine ⟨fun _ => by simp, fun hvt => ?_⟩
            rw [List.getD_cons_zero] at hvt
            rw [hvt] at hv
            exact absurd hv (by simp)
          | succ n =>
            simpa using hprop n (by simpa using hi)
      | true =>
        obtain ⟨x, y, z, hz, hs⟩ := processObjLine_vertex_inv hv hp
        subst hs
        have hout : processObjLineWithZOffset (vertexOutLine x y (z - o)) (-o) =
            .ok (vertexOutLine x y z) := by
          rw [processObjLine_vertexOut]
          norm_num
        refine ⟨vertexOutLine x y z :: out2', ?_, by simp [← h1, hlen], ?_⟩
        · rw [← h1, processLines_cons_ok hout, ho2]
        · intro i hi
          cases i with
          | zero =>
            refine ⟨fun hvf => ?_, fun _ => ?_⟩
            · rw [List.getD_cons_zero] at hvf
              rw [hvf] at hv
              exact absurd hv (by simp)
            · rw [List.getD_cons_zero, List.getD_cons_zero, lineZ_vertexOut, hz]
          | succ n =>
            simpa using hprop n (by simpa using hi)

/-- C4 witness: a concrete two-line mesh (one comment line, one vertex
line) round-trips through offsets `5` and `-5`. -/
theorem offset_application_roundtrip_witness :
    ∃ out2, processLines ["# hdr\n", "v 1 2 -2\n"] (-(5 : ℚ)) = (out2, none) ∧
      out2.length = (["# hdr\n", "v 1 2 3\n"] : List String).length ∧
      ∀ i, i < (["# hdr\n", "v 1 2 3\n"] : List String).length →
        (isVertexLine ((["# hdr\n", "v 1 2 3\n"] : List String).getD i "") = false →
          out2.getD i "" = (["# hdr\n", "v 1 2 3\n"] : List String).getD i "") ∧
        (isVertexLine ((["# hdr\n", "v 1 2 3\n"] : List String).getD i "") = true →
          lineZ? (out2.getD i "") =
            lineZ? ((["# hdr\n", "v 1 2 3\n"] : List String).getD i "")) :=
  offset_application_roundtrip ["# hdr\n", "v 1 2 3\n"]
    ["# hdr\n", "v 1 2 -2\n"] 5 (by decide)

/-! ## Claims C2 and C10 -/

/-- C2 counterexample: on the mesh `["v 1 2 3\n", "v 1.0 2.0\n"]` with
offset 1, `apply_z_offset_to_obj` does raise `FileProcessingError`, but
the output file — opened with mode `'w'` at the output path before
processing — is left containing the single processed line
`"v 1 2 2\n"`: a truncated, half-written output file visible to callers,
contradicting the claim's second half. -/
theorem malformed_vertex_counterexample :
    (apply_z_offset_to_obj ["v 1 2 3\n", "v 1.0 2.0\n"] 1).1 =
      Except.error PipeErr.fileProcessingError ∧
    (apply_z_offset_to_obj ["v 1 2 3\n", "v 1.0 2.0\n"] 1).2 =
      ["v 1 2 2\n"] :=
  ⟨by rfl, by decide⟩

/-- C2 (amended): for every input mesh containing a vertex declaration
line with fewer than four whitespace-separated tokens,
`apply_z_offset_to_obj` raises `FileProcessingError`; however the output
file is created at the output path before processing and the lines
processed before the failure remain in it (strictly fewer than the input
lines), so a partial output file is visible to callers. -/
theorem malformed_vertex_aborts (lines : List String) (o : ℚ)
    (h : ∃ l ∈ lines, isMalformedVertexLine l = true) :
    (apply_z_offset_to_obj lines o).1 =
      Except.error PipeErr.fileProcessingError ∧
    (apply_z_offset_to_obj lines o).2.length < lines.length := by
  have key : ∀ L : List String, (∃ l ∈ L, isMalformedVertexLine l = true) →
      (processLines L o).2.isSome = true ∧
      (processLines L o).1.length < L.length := by
    intro L
    induction L with
    | nil =>
      intro hL
      obtain ⟨l, hl, _⟩ := hL
      simp at hl
    | cons l ls ih =>
      intro hL
      cases hp : processObjLineWithZOffset l o with
      | error e =>
        rw [processLines_cons_error hp]
        simp
      | ok s =>
        rw [processLines_cons_ok hp]
        have hml : ∃ l' ∈ ls, isMalformedVertexLine l' = true := by
          obtain ⟨l', hl', hm⟩ := hL
          rcases List.mem_cons.mp hl' with rfl | hin
          · rw [processObjLine_malformed o hm] at hp
            exact absurd hp (by simp)
          · exact ⟨l', hin, hm⟩
        obtain ⟨ih1, ih2⟩ := ih hml
        exact ⟨by simpa using ih1, by simpa using Nat.succ_lt_succ ih2⟩
  obtain ⟨h1, h2⟩ := key lines h
  cases hs : (processLines lines o).2 with
  | none => rw [hs] at h1; simp at h1
  | some e =>
    constructor
    · simp only [apply_z_offset_to_obj, hs]
    · simpa [apply_z_offset_to_obj, hs] using h2

/-- C2 witness: a concrete mesh whose second line is malformed. -/
theorem malformed_vertex_aborts_witness :
    (apply_z_offset_to_obj ["# c\n", "v 1 2\n"] 3).1 =
      Except.error PipeErr.fileProcessingError ∧
    (apply_z_offset_to_obj ["# c\n", "v 1 2\n"] 3).2.length <
      (["# c\n", "v 1 2\n"] : List String).length :=
  malformed_vertex_aborts ["# c\n", "v 1 2\n"] 3
    ⟨"v 1 2\n", by decide, by decide⟩

/-- C10: for every vertex token list with more than four tokens whose
coordinate tokens parse, `_apply_z_offset_to_vertex_line` outputs only
the `'v '` prefix and the three coordinates with the shifted vertical
value — the output has exactly four whitespace tokens, strictly fewer
than the input, so every token after the third coordinate is silently
discarded and such lines do not round-trip. -/
theorem vertex_line_extra_tokens_dropped (parts : List String) (o x y z : ℚ)
    (hlen : 4 < parts.length)
    (hx : pyFloat (parts.getD 1 "") = some x)
    (hy : pyFloat (parts.getD 2 "") = some y)
    (hz : pyFloat (parts.getD 3 "") = some z) :
    applyZOffsetToVertexLine parts o = .ok (vertexOutLine x y (z - o)) ∧
    (pySplit (pyStrip (vertexOutLine x y (z - o)))).length = 4 ∧
    (pySplit (pyStrip (vertexOutLine x y (z - o)))).length < parts.length := by
  refine ⟨applyZOffsetToVertexLine_ok o (by omega) hx hy hz, ?_, ?_⟩ <;>
    rw [pySplit_vertexOut_strip]
  · rfl
  · simp only [List.length_cons, List.length_nil]
    omega

/-- C10 witness: a five-token vertex line (extra color token `255`). -/
theorem vertex_line_extra_tokens_dropped_witness :
    applyZOffsetToVertexLine ["v", "1", "2", "3", "255"] 1 =
      .ok (vertexOutLine 1 2 (3 - 1)) ∧
    (pySplit (pyStrip (vertexOutLine 1 2 (3 - 1)))).length = 4 ∧
    (pySplit (pyStrip (vertexOutLine 1 2 (3 - 1)))).length <
      (["v", "1", "2", "3", "255"] : List String).length :=
  vertex_line_extra_tokens_dropped ["v", "1", "2", "3", "255"] 1 1 2 3
    (by decide) (by decide) (by decide) (by decide)

/-! ## Claim C5 -/

/-- C5: for every plane equation `(A, B, C, D)` and inlier list produced
by the RANSAC fit, `_calculate_z_offset` returns `-D / C` exactly when
`|C|` exceeds the tolerance `EPSILON = 1e-6` (the returned offset then
satisfies `C·offset + D = 0`, the Z-intercept equation), and otherwise
returns the mean (sum over count) of the vertical coordinates of the
inlier points without dividing by the near-zero `C`, recording the
degeneracy as a non-fatal warning flag rather than an error. -/
theorem plane_offset_branches (vertices : List Vec3) (fit : RansacFit) :
    (EPSILON < |fit.C| →
      calculateZOffsetCore vertices fit = ⟨-fit.D / fit.C, false⟩ ∧
      fit.C * (calculateZOffsetCore vertices fit).offset + fit.D = 0) ∧
    (|fit.C| ≤ EPSILON →
      calculateZOffsetCore vertices fit =
        ⟨(fit.inliers.map fun i => (vertices.getD i ⟨0, 0, 0⟩).z).sum /
          (fit.inliers.length : ℚ), true⟩) := by
  constructor
  · intro h
    have hC : fit.C ≠ 0 := by
      intro h0
      rw [h0] at h
      simp only [abs_zero] at h
      exact absurd h (by norm_num [EPSILON])
    have heq : calculateZOffsetCore vertices fit = ⟨-fit.D / fit.C, false⟩ := by
      unfold calculateZOffsetCore
      rw [if_pos h]
    refine ⟨heq, ?_⟩
    rw [heq]
    field_simp
    ring
  · intro h
    unfold calculateZOffsetCore
    rw [if_neg (not_lt.mpr h)]
    simp [listMean]

/-- C5 witness: with plane `(0, 0, 1, -7)` (so `C = 1`), the offset is the
Z-intercept `7` and satisfies the plane equation at `(0, 0)`. -/
theorem plane_offset_branches_witness :
    calculateZOffsetCore [] ⟨0, 0, 1, -7, []⟩ = ⟨-(-7) / 1, false⟩ ∧
    (⟨0, 0, 1, -7, []⟩ : RansacFit).C *
        (calculateZOffsetCore [] ⟨0, 0, 1, -7, []⟩).offset +
      (⟨0, 0, 1, -7, []⟩ : RansacFit).D = 0 :=
  (plane_offset_branches [] ⟨0, 0, 1, -7, []⟩).1 (by norm_num [EPSILON])

/-! ## Claim C1 -/

theorem ptsDiag_length (n : ℕ) : (ptsDiag n).length = n := by
  rw [ptsDiag, List.length_map, List.length_range]

theorem ptsDiag_getD {n m : ℕ} (hm : m < n) :
    (ptsDiag n).getD m ⟨0, 0, 0⟩ = ⟨(m : ℚ), (m : ℚ) * (m : ℚ), (m : ℚ)⟩ := by
  rw [ptsDiag, List.getD_eq_getElem?_getD, List.getElem?_map,
    List.getElem?_range hm]
  rfl

theorem diagFit_candidate (n : ℕ) (hn : 3 ≤ n) :
    (diagFit n).candidate (ptsDiag n) := by
  refine ⟨⟨0, 1, 2, by norm_num, by norm_num, by rw [ptsDiag_length]; omega,
      ?_, ?_, ?_⟩, ?_, ?_, ?_, ?_⟩
  · rw [ptsDiag_getD (by omega)]
    unfold RansacFit.onPlane diagFit
    norm_num
  · rw [ptsDiag_getD (by omega)]
    unfold RansacFit.onPlane diagFit
    norm_num
  · rw [ptsDiag_getD (by omega)]
    unfold RansacFit.onPlane diagFit
    norm_num
  · unfold diagFit
    norm_num
  · exact List.nodup_range n
  · intro m hm
    rw [ptsDiag_length]
    exact List.mem_range.mp (by simpa [diagFit] using hm)
  · intro m hm _
    rw [ptsDiag_length] at hm
    simpa [diagFit] using List.mem_range.mpr hm

/-- C1 (amended): the offset estimator invoked by the pipeline when no
manual offset is given implements the RANSAC plane-fit strategy
(Z-intercept `-D/C`, or mean inlier Z in the near-vertical branch), not
the percentile strategy: on the synthetic mesh with vertical coordinates
`{0, …, n−1}` placed on the plane `x − z = 0`, every outcome the RANSAC
contract admits yields offset `0` (the plane's Z-intercept) or
`(n−1)/2` (the inlier mean), never the 30th percentile. -/
theorem ransac_estimator_on_diag (n : ℕ) (fit : RansacFit)
    (h : fit.candidate (ptsDiag n)) :
    (calculateZOffsetCore (ptsDiag n) fit).offset = 0 ∨
    (calculateZOffsetCore (ptsDiag n) fit).offset = ((n : ℚ) - 1) / 2 := by
  obtain ⟨⟨i, j, k, hij, hjk, hkn, hpi, hpj, hpk⟩, hnz, hnodup, hbound, hclosure⟩ := h
  rw [ptsDiag_length] at hkn
  rw [ptsDiag_getD (by omega)] at hpi
  rw [ptsDiag_getD (by omega)] at hpj
  rw [ptsDiag_getD (by omega)] at hpk
  unfold RansacFit.onPlane at hpi hpj hpk
  simp only at hpi hpj hpk
  have hji : ((j : ℚ) - (i : ℚ)) ≠ 0 := by
    have : (i : ℚ) ≠ (j : ℚ) := by
      exact_mod_cast Nat.ne_of_lt hij
    intro hc
    exact this (by linarith)
  have hki : ((k : ℚ) - (i : ℚ)) ≠ 0 := by
    have : (i : ℚ) ≠ (k : ℚ) := by
      exact_mod_cast Nat.ne_of_lt (by omega : i < k)
    intro hc
    exact this (by linarith)
  have hjk' : ((j : ℚ) - (k : ℚ)) ≠ 0 := by
    have : (j : ℚ) ≠ (k : ℚ) := by
      exact_mod_cast Nat.ne_of_lt hjk
    intro hc
    exact this (by linarith)
  have q1 : ((j : ℚ) - (i : ℚ)) *
      ((fit.A + fit.C) + fit.B * ((j : ℚ) + (i : ℚ))) = 0 := by
    linear_combination hpj - hpi
  have q2 : ((k : ℚ) - (i : ℚ)) *
      ((fit.A + fit.C) + fit.B * ((k : ℚ) + (i : ℚ))) = 0 := by
    linear_combination hpk - hpi
  have s1 : (fit.A + fit.C) + fit.B * ((j : ℚ) + (i : ℚ)) = 0 :=
    (mul_eq_zero.mp q1).resolve_left hji
  have s2 : (fit.A + fit.C) + fit.B * ((k : ℚ) + (i : ℚ)) = 0 :=
    (mul_eq_zero.mp q2).resolve_left hki
  have q3 : fit.B * ((j : ℚ) - (k : ℚ)) = 0 := by
    linear_combination s1 - s2
  have hB : fit.B = 0 := (mul_eq_zero.mp q3).resolve_right hjk'
  have hAC : fit.A + fit.C = 0 := by
    rw [hB] at s1
    linarith
  have hD : fit.D = 0 := by
    linear_combination hpi - (i : ℚ) * hAC - ((i : ℚ) * (i : ℚ)) * hB
  have hC : fit.C ≠ 0 := by
    intro h0
    exact hnz ⟨by linarith, hB, h0⟩
  by_cases heps : EPSILON < |fit.C|
  · left
    unfold calculateZOffsetCore
    rw [if_pos heps, hD]
    simp
  · right
    unfold calculateZOffsetCore
    rw [if_neg heps]
    have hbound' : ∀ m ∈ fit.inliers, m < n := by
      intro m hm
      have := hbound m hm
      rwa [ptsDiag_length] at this
    have hall : ∀ m, m < n → m ∈ fit.inliers := by
      intro m hm
      apply hclosure m (by rw [ptsDiag_length]; exact hm)
      rw [ptsDiag_getD hm]
      unfold RansacFit.onPlane
      simp only
      linear_combination (m : ℚ) * hAC + ((m : ℚ) * (m : ℚ)) * hB + hD
    have hfin : fit.inliers.toFinset = Finset.range n := by
      ext m
      simp only [List.mem_toFinset, Finset.mem_range]
      exact ⟨hbound' m, hall m⟩
    have hlen : fit.inliers.length = n := by
      rw [← List.toFinset_card_of_nodup hnodup, hfin, Finset.card_range]
    have hmap : (fit.inliers.map fun m => ((ptsDiag n).getD m ⟨0, 0, 0⟩).z) =
        fit.inliers.map fun m : ℕ => (m : ℚ) := by
      apply List.map_congr_left
      intro m hm
      rw [ptsDiag_getD (hbound' m hm)]
    have hsum : (fit.inliers.map fun m : ℕ => (m : ℚ)).sum =
        ∑ m ∈ Finset.range n, (m : ℚ) := by
      rw [← List.sum_toFinset _ hnodup, hfin]
    have hn1 : 1 ≤ n := by omega
    have hgauss : (∑ m ∈ Finset.range n, (m : ℚ)) =
        (n : ℚ) * ((n : ℚ) - 1) / 2 := by
      have h2 := Finset.sum_range_id_mul_two n
      have h2q : ((∑ m ∈ Finset.range n, m : ℕ) : ℚ) * 2 =
          (n : ℚ) * (((n - 1 : ℕ)) : ℚ) := by
        exact_mod_cast h2
      rw [Nat.cast_sub hn1] at h2q
      have hcast : (∑ m ∈ Finset.range n, (m : ℚ)) =
          ((∑ m ∈ Finset.range n, m : ℕ) : ℚ) := by
        push_cast
        rfl
      rw [hcast]
      push_cast at h2q ⊢
      linarith
    have hn0 : (n : ℚ) ≠ 0 := by
      exact_mod_cast (by omega : n ≠ 0)
    simp only [listMean, hmap, hsum, hgauss, List.length_map, hlen]
    field_simp
    ring

/-- C1 witness for the amended claim: the exact fit `(1, 0, −1, 0)` with
all 100 points as inliers is admissible for the 100-point mesh, and the
estimator then returns `0` or `49.5` — not `29`. -/
theorem ransac_estimator_on_diag_witness :
    (calculateZOffsetCore (ptsDiag 100) (diagFit 100)).offset = 0 ∨
    (calculateZOffsetCore (ptsDiag 100) (diagFit 100)).offset =
      ((100 : ℚ) - 1) / 2 :=
  ransac_estimator_on_diag 100 (diagFit 100)
    (diagFit_candidate 100 (by norm_num))

/-- C1 counterexample: the estimator does not implement the percentile
strategy.  On the 10-point mesh with vertical coordinates `{0, …, 9}`
lying on the plane `x − z = 0`, the admissible RANSAC outcome
`(1, 0, −1, 0)` with every point an inlier makes `_calculate_z_offset`
return `0`, while the 30th percentile of the collected vertical
coordinates is `2`. -/
theorem ransac_not_percentile_counterexample :
    ¬ (∀ (vertices : List Vec3) (fit : RansacFit),
        fit.candidate vertices →
        (calculateZOffsetCore vertices fit).offset =
          percentile30Spec (vertices.map (·.z))) := by
  intro hclaim
  have h0 := hclaim (ptsDiag 10) (diagFit 10) (diagFit_candidate 10 (by norm_num))
  rw [show (calculateZOffsetCore (ptsDiag 10) (diagFit 10)).offset = 0 from by
      decide,
    show percentile30Spec ((ptsDiag 10).map (·.z)) = 2 from by decide] at h0
  exact absurd h0 (by norm_num)

/-! ## Claim C6 -/

/-- C6 counterexample: the file `"WGS84 UTM 99N" / "1.0 2.0"` parses
successfully into an anchor with UTM zone 99, outside the range 1–60 —
`read_georeferencing_file` enforces no zone-range invariant. -/
theorem georef_zone_range_counterexample :
    read_georeferencing_file ["WGS84 UTM 99N", "1.0 2.0"] =
      .ok ⟨1, 2, 99, Hemisphere.NORTH⟩ ∧
    ¬((1 : ℤ) ≤ 99 ∧ (99 : ℤ) ≤ 60) :=
  ⟨by rfl, by decide⟩

/-- C6 (amended): every anchor returned by `read_georeferencing_file`
has hemisphere exactly `NORTH` or `SOUTH` (obtained through
`Hemisphere.from_code` from the final letter of the last token of the
coordinate-system line, which accepts only `'N'`/`'S'`), and its UTM zone
is exactly the integer parsed from the remainder of that token — the
1–60 range of standard UTM zoning is not checked. -/
theorem georef_anchor_parse (lines : List String) (a : Anchor)
    (h : read_georeferencing_file lines = .ok a) :
    (a.hemisphere = .NORTH ∨ a.hemisphere = .SOUTH) ∧
    ∃ tok, (pySplit (pyStrip (lines.getD 0 ""))).getLast? = some tok ∧
      pyInt ⟨tok.toList.dropLast⟩ = some a.utm_zone ∧
      ∃ hc, tok.toList.getLast? = some hc ∧
        Hemisphere.fromCode ⟨[hc]⟩ = some a.hemisphere := by
  refine ⟨?_, ?_⟩
  · cases a.hemisphere
    · exact Or.inl rfl
    · exact Or.inr rfl
  · unfold read_georeferencing_file at h
    cases hr : readGeorefLines lines with
    | none =>
      rw [hr] at h
      exact absurd h (by simp)
    | some a' =>
      rw [hr] at h
      have ha : a' = a := Except.ok.inj h
      subst ha
      unfold readGeorefLines at hr
      simp only [bind, Option.bind_eq_some, Option.pure_def,
        Option.some.injEq] at hr
      obtain ⟨l0, hl0, l1, hl1, c0, hc0, c1, hc1, e, he, nr, hn, tok, htok,
        z, hz, hc, hhc, hem, hhem, hanch⟩ := hr
      subst hanch
      have hl0' : lines.getD 0 "" = l0 := by
        rw [List.getD_eq_getElem?_getD, ← List.get?_eq_getElem?, hl0]
        rfl
      exact ⟨tok, by rw [hl0']; exact htok, hz, hc, hhc, hhem⟩

/-- C6 witness: the well-formed file `"WGS84 UTM 35N"` parses to zone 35,
hemisphere NORTH, and the amended parse decomposition holds for it. -/
theorem georef_anchor_parse_witness :
    ((⟨500000, 4649776, 35, Hemisphere.NORTH⟩ : Anchor).hemisphere =
        Hemisphere.NORTH ∨
      (⟨500000, 4649776, 35, Hemisphere.NORTH⟩ : Anchor).hemisphere =
        Hemisphere.SOUTH) ∧
    ∃ tok, (pySplit (pyStrip ((["WGS84 UTM 35N", "500000.0 4649776.0"] :
        List String).getD 0 ""))).getLast? = some tok ∧
      pyInt ⟨tok.toList.dropLast⟩ =
        some (⟨500000, 4649776, 35, Hemisphere.NORTH⟩ : Anchor).utm_zone ∧
      ∃ hc, tok.toList.getLast? = some hc ∧
        Hemisphere.fromCode ⟨[hc]⟩ =
          some (⟨500000, 4649776, 35, Hemisphere.NORTH⟩ : Anchor).hemisphere :=
  georef_anchor_parse ["WGS84 UTM 35N", "500000.0 4649776.0"]
    ⟨500000, 4649776, 35, Hemisphere.NORTH⟩ (by rfl)

/-! ## Claim C9 -/

/-- C9: `utm_to_wgs84` assembles exactly two projection parameter strings
— the fixed WGS84 longlat target and a UTM source formed from the fixed
template plus the zone number and the hemisphere keyword — and delegates
the transform itself to the external geodesy primitive; the NORTH value
carries keyword `"north"` and code `"N"`, SOUTH carries `"south"` and
`"S"` (shown both symbolically and on the concrete zone 35N). -/
theorem utm_proj_string_assembly (T : String → String → ℚ × ℚ → ℚ × ℚ)
    (e n : ℚ) (z : ℤ) (h : Hemisphere) :
    utm_to_wgs84 T e n z h =
      T (UTM_PROJ_STRING_TEMPLATE ++ " +zone=" ++ formatZ z ++ " +" ++
          h.projectionValue) WGS84_PROJ_STRING (e, n) ∧
    Hemisphere.projectionValue .NORTH = "north" ∧
    Hemisphere.code .NORTH = "N" ∧
    Hemisphere.projectionValue .SOUTH = "south" ∧
    Hemisphere.code .SOUTH = "S" ∧
    utm_to_wgs84 T e n 35 .NORTH =
      T "+proj=utm +ellps=WGS84 +datum=WGS84 +units=m +no_defs +zone=35 +north"
        WGS84_PROJ_STRING (e, n) := by
  refine ⟨rfl, rfl, rfl, rfl, rfl, ?_⟩
  rfl

/-! ## Claim C8 -/

/-- C8: texture discovery never raises (the model of `get_texture_paths`
is a total function: every exception of the body is caught and mapped to
the empty list), every path it returns exists on disk, and a referenced
material-library file that does not exist on disk degrades the result to
the empty list. -/
theorem texture_discovery_best_effort (fs : FS) (objPath : String) :
    (∀ p ∈ get_texture_paths fs objPath, fs.exists? p = true) ∧
    (∀ m, findMtlFile ((fs.read? objPath).getD []) = some m → m ≠ "" →
      fs.exists? (joinPath (dirName objPath) m) = false →
      get_texture_paths fs objPath = []) := by
  constructor
  · intro p hp
    unfold get_texture_paths at hp
    cases h : getTextureFiles fs objPath with
    | error e =>
      rw [h] at hp
      simp at hp
    | ok refs =>
      rw [h] at hp
      exact (List.mem_filter.mp hp).2
  · intro m hm hne hmiss
    cases hread : fs.read? objPath with
    | none =>
      simp only [get_texture_paths, getTextureFiles, hread]
    | some objLines =>
      rw [hread] at hm
      simp only [Option.getD_some] at hm
      have hfiles : getTextureFiles fs objPath = .ok [] := by
        simp only [getTextureFiles, hread, hm, if_neg hne]
        unfold extractTextureRefs
        rw [if_neg (by simp [hmiss])]
      unfold get_texture_paths
      rw [hfiles]
      rfl

/-- C8 witness: an OBJ referencing `m.mtl` with one existing texture
yields only existing paths; the same OBJ with the material file absent
yields no textures. -/
theorem texture_discovery_best_effort_witness :
    FS.exists? ⟨[("m.obj", ["mtllib m.mtl"]), ("m.mtl", ["map_Kd tex.png"]),
      ("tex.png", [])]⟩ "tex.png" = true ∧
    get_texture_paths ⟨[("m.obj", ["mtllib m.mtl"])]⟩ "m.obj" = [] :=
  ⟨(texture_discovery_best_effort
      ⟨[("m.obj", ["mtllib m.mtl"]), ("m.mtl", ["map_Kd tex.png"]),
        ("tex.png", [])]⟩ "m.obj").1 "tex.png" (by decide),
    (texture_discovery_best_effort ⟨[("m.obj", ["mtllib m.mtl"])]⟩
      "m.obj").2 "m.mtl" (by decide) (by decide) (by decide)⟩

/-! ## Filesystem lemmas for the pipeline claims -/

theorem isPrefixOf_append_self (l m : List Char) :
    l.isPrefixOf (l ++ m) = true := by
  induction l with
  | nil => simp [List.isPrefixOf]
  | cons c cs ih => simp [List.isPrefixOf, ih]

theorem FS.exists?_write_self (fs : FS) (p : String) (c : List String) :
    (fs.write p c).exists? p = true := by
  simp [FS.write, FS.exists?]

theorem FS.exists?_write_mono {fs : FS} {p : String}
    (h : fs.exists? p = true) (q : String) (c : List String) :
    (fs.write q c).exists? p = true := by
  by_cases hpq : p = q
  · subst hpq
    exact fs.exists?_write_self p c
  · simp only [FS.write, FS.exists?, List.any_cons, List.any_eq_true,
      Bool.or_eq_true, beq_iff_eq] at h ⊢
    rcases h with ⟨e, he, hep⟩
    exact Or.inr ⟨e, List.mem_filter.mpr ⟨he, by simp [hep, hpq]⟩, hep⟩

theorem tempCleanup_removed {td p : String} (fs : FS)
    (h : p = td ∨ (td ++ "/").toList.isPrefixOf p.toList = true) :
    (tempCleanup td fs).exists? p = false := by
  simp only [tempCleanup, FS.exists?]
  rw [List.any_eq_false]
  intro e he
  rw [List.mem_filter] at he
  obtain ⟨_, hpred⟩ := he
  simp only [Bool.not_eq_true', Bool.or_eq_false_iff,
    beq_eq_false_iff_ne, ne_eq] at hpred
  simp only [beq_iff_eq]
  intro hep
  rcases h with rfl | h
  · exact hpred.1 hep
  · rw [hep, h] at hpred
    exact absurd hpred.2 (by simp)

theorem tempCleanup_kept {td p : String} (fs : FS)
    (h1 : p ≠ td) (h2 : (td ++ "/").toList.isPrefixOf p.toList = false) :
    (tempCleanup td fs).exists? p = fs.exists? p := by
  simp only [tempCleanup, FS.exists?]
  rw [Bool.eq_iff_iff]
  simp only [List.any_eq_true, List.mem_filter]
  constructor
  · rintro ⟨e, ⟨he, _⟩, hep⟩
    exact ⟨e, he, hep⟩
  · rintro ⟨e, he, hep⟩
    have hep' : e.1 = p := by simpa using hep
    refine ⟨e, ⟨he, ?_⟩, hep⟩
    rw [hep']
    have h2' : (td.data ++ ['/']).isPrefixOf p.data = false := by
      simpa using h2
    simp [h1, h2']

/-! ## Claim C7 -/

/-- C7 counterexample: with a filesystem missing the mesh file,
`convert_model` returns the Python builtin `FileNotFoundError` — not
`ValidationError` (the class `errors.py` defines but nothing raises) —
though it does so before doing any other work. -/
theorem missing_input_counterexample :
    convert_model ⟨"tmpX", diagFit 1, fun _ _ p => p, true, true⟩ ⟨[]⟩
        "m.obj" "g.txt" "o.kmz" (some 5) true =
      (.error .fileNotFoundError, ⟨[]⟩, []) ∧
    PipeErr.fileNotFoundError ≠ PipeErr.validationError :=
  ⟨by rfl, by decide⟩

/-- C7 (amended): if the input mesh file does not exist — or it exists
but the georeferencing file does not — `convert_model` raises the Python
builtin `FileNotFoundError` (not the unused `ValidationError`) before
doing any other work: the filesystem is returned untouched and no
pipeline stage (descriptor read, offset computation, external tool) is
entered. -/
theorem missing_input_validation (env : PipeEnv) (fs : FS)
    (obj georef out : String) (z? : Option ℚ) (nt : Bool) :
    (fs.exists? obj = false →
      convert_model env fs obj georef out z? nt =
        (.error .fileNotFoundError, fs, [])) ∧
    (fs.exists? obj = true → fs.exists? georef = false →
      convert_model env fs obj georef out z? nt =
        (.error .fileNotFoundError, fs, [])) := by
  constructor
  · intro h
    unfold convert_model
    rw [if_pos (by simp [h])]
  · intro h1 h2
    unfold convert_model
    rw [if_neg (by simp [h1]), if_pos (by simp [h2])]

/-- C7 witness: a filesystem holding only the georeferencing file. -/
theorem missing_input_validation_witness :
    convert_model ⟨"tmpX", diagFit 1, fun _ _ p => p, true, true⟩
        ⟨[("g.txt", ["WGS84 UTM 35N", "500000.0 4649776.0"])]⟩
        "m.obj" "g.txt" "o.kmz" none false =
      (.error .fileNotFoundError,
        ⟨[("g.txt", ["WGS84 UTM 35N", "500000.0 4649776.0"])]⟩, []) :=
  (missing_input_validation ⟨"tmpX", diagFit 1, fun _ _ p => p, true, true⟩
      ⟨[("g.txt", ["WGS84 UTM 35N", "500000.0 4649776.0"])]⟩
      "m.obj" "g.txt" "o.kmz" none false).1 (by decide)

/-! ## Claim C3 -/

/-- C3 counterexample: a successful conversion of `m.obj` with manual
offset 5 returns `ok`, the temporary directory and the DAE inside it are
gone, but the intermediate offset-corrected mesh copy `m_aligned.obj`
remains on disk after `convert_model` returns — it was written next to
the input mesh, not into the scoped temporary area. -/
theorem aligned_mesh_copy_counterexample :
    (convert_model ⟨"tmpX", diagFit 1, fun _ _ p => p, true, true⟩
        ⟨[("m.obj", ["v 1 2 3\n"]),
          ("g.txt", ["WGS84 UTM 35N", "500000.0 4649776.0"])]⟩
        "m.obj" "g.txt" "o.kmz" (some 5) true).1 = .ok () ∧
    ((convert_model ⟨"tmpX", diagFit 1, fun _ _ p => p, true, true⟩
        ⟨[("m.obj", ["v 1 2 3\n"]),
          ("g.txt", ["WGS84 UTM 35N", "500000.0 4649776.0"])]⟩
        "m.obj" "g.txt" "o.kmz" (some 5) true).2.1).exists? "m_aligned.obj" =
      true ∧
    ((convert_model ⟨"tmpX", diagFit 1, fun _ _ p => p, true, true⟩
        ⟨[("m.obj", ["v 1 2 3\n"]),
          ("g.txt", ["WGS84 UTM 35N", "500000.0 4649776.0"])]⟩
        "m.obj" "g.txt" "o.kmz" (some 5) true).2.1).exists? "tmpX" = false ∧
    ((convert_model ⟨"tmpX", diagFit 1, fun _ _ p => p, true, true⟩
        ⟨[("m.obj", ["v 1 2 3\n"]),
          ("g.txt", ["WGS84 UTM 35N", "500000.0 4649776.0"])]⟩
        "m.obj" "g.txt" "o.kmz" (some 5) true).2.1).exists?
      "tmpX/m_aligned.dae" = false :=
  ⟨by rfl, by rfl, by rfl, by rfl⟩

/-- C3 (amended): on a successful run with a nonzero offset the scoped
temporary directory and the DAE copy inside it are removed, but the
intermediate offset-corrected mesh copy `<stem>_aligned.obj` is written
next to the input mesh, outside the temporary area, and remains on disk
after `convert_model` returns. -/
theorem aligned_mesh_copy_persists (env : PipeEnv) (fs : FS)
    (obj georef out : String) (o : ℚ) (nt : Bool) (a : Anchor)
    (hobj : fs.exists? obj = true)
    (hgeo : fs.exists? georef = true)
    (hdir : dirName out = "")
    (hread : read_georeferencing_file ((fs.read? georef).getD []) = .ok a)
    (ho : o ≠ 0)
    (happly : (processLines (((fs.write env.tempDir []).read? obj).getD [])
      o).2 = none)
    (hconv : env.converterOk = true)
    (htemp : env.templateOk = true)
    (htd : env.tempDir ≠ "")
    (halign_ne : alignedObjPath obj ≠ env.tempDir)
    (halign_pref : ((env.tempDir ++ "/").toList.isPrefixOf
      (alignedObjPath obj).toList) = false) :
    (convert_model env fs obj georef out (some o) nt).1 = .ok () ∧
    ((convert_model env fs obj georef out (some o) nt).2.1).exists?
      (alignedObjPath obj) = true ∧
    ((convert_model env fs obj georef out (some o) nt).2.1).exists?
      env.tempDir = false ∧
    ((convert_model env fs obj georef out (some o) nt).2.1).exists?
      (joinPath env.tempDir (stemOf (alignedObjPath obj) ++ ".dae")) =
      false := by
  have happ : apply_z_offset_to_obj
      (((fs.write env.tempDir []).read? obj).getD []) o =
      (.ok (), (processLines (((fs.write env.tempDir []).read? obj).getD [])
        o).1) := by
    simp only [apply_z_offset_to_obj, happly]
  have hmain : convert_model env fs obj georef out (some o) nt =
      (.ok (), tempCleanup env.tempDir
        ((((fs.write env.tempDir []).write (alignedObjPath obj)
            (processLines (((fs.write env.tempDir []).read? obj).getD [])
              o).1).write
          (joinPath env.tempDir (stemOf (alignedObjPath obj) ++ ".dae"))
          []).write out []),
        (if nt then
          [PipeEvent.readGeoref, PipeEvent.applyOffset, PipeEvent.convertDae]
        else
          [PipeEvent.readGeoref, PipeEvent.applyOffset, PipeEvent.convertDae,
            PipeEvent.getTextures]) ++ [PipeEvent.packKmz]) := by
    unfold convert_model
    rw [if_neg (by simp [hobj]), if_neg (by simp [hgeo])]
    simp only [hdir, ne_eq, not_true_eq_false, false_and, if_false, hread,
      happ, if_pos ho, hconv, htemp, not_true_eq_false, if_false,
      Bool.not_true, List.cons_append, List.nil_append]
  rw [hmain]
  refine ⟨rfl, ?_, ?_, ?_⟩
  · rw [tempCleanup_kept _ halign_ne halign_pref]
    exact FS.exists?_write_mono (FS.exists?_write_mono
      (FS.exists?_write_self _ _ _) _ _) _ _
  · exact tempCleanup_removed _ (Or.inl rfl)
  · apply tempCleanup_removed
    right
    unfold joinPath
    rw [if_neg htd]
    have hsplit : (env.tempDir ++ "/" ++
        (stemOf (alignedObjPath obj) ++ ".dae")).toList =
        (env.tempDir ++ "/").toList ++
          (stemOf (alignedObjPath obj) ++ ".dae").toList := by
      simp [String.toList]
    rw [hsplit]
    exact isPrefixOf_append_self _ _

/-- C3 witness: the amended claim instantiated on the concrete successful
run of the counterexample scenario. -/
theorem aligned_mesh_copy_persists_witness :
    (convert_model ⟨"tmpX", diagFit 1, fun _ _ p => p, true, true⟩
        ⟨[("m.obj", ["v 1 2 3\n"]),
          ("g.txt", ["WGS84 UTM 35N", "500000.0 4649776.0"])]⟩
        "m.obj" "g.txt" "o.kmz" (some 5) false).1 = .ok () ∧
    ((convert_model ⟨"tmpX", diagFit 1, fun _ _ p => p, true, true⟩
        ⟨[("m.obj", ["v 1 2 3\n"]),
          ("g.txt", ["WGS84 UTM 35N", "500000.0 4649776.0"])]⟩
        "m.obj" "g.txt" "o.kmz" (some 5) false).2.1).exists?
      (alignedObjPath "m.obj") = true ∧
    ((convert_model ⟨"tmpX", diagFit 1, fun _ _ p => p, true, true⟩
        ⟨[("m.obj", ["v 1 2 3\n"]),
          ("g.txt", ["WGS84 UTM 35N", "500000.0 4649776.0"])]⟩
        "m.obj" "g.txt" "o.kmz" (some 5) false).2.1).exists? "tmpX" = false ∧
    ((convert_model ⟨"tmpX", diagFit 1, fun _ _ p => p, true, true⟩
        ⟨[("m.obj", ["v 1 2 3\n"]),
          ("g.txt", ["WGS84 UTM 35N", "500000.0 4649776.0"])]⟩
        "m.obj" "g.txt" "o.kmz" (some 5) false).2.1).exists?
      (joinPath "tmpX" (stemOf (alignedObjPath "m.obj") ++ ".dae")) =
      false :=
  aligned_mesh_copy_persists ⟨"tmpX", diagFit 1, fun _ _ p => p, true, true⟩
    ⟨[("m.obj", ["v 1 2 3\n"]),
      ("g.txt", ["WGS84 UTM 35N", "500000.0 4649776.0"])]⟩
    "m.obj" "g.txt" "o.kmz" 5 false ⟨500000, 4649776, 35, .NORTH⟩
    (by decide) (by decide) (by decide) (by rfl) (by decide) (by decide)
    (by rfl) (by rfl) (by decide) (by decide) (by decide)

end ObjToKmz
